import Mathlib

/-!
Shallow embedding of the AgriVision disease-classification decision layer.

Source files modelled:
* `backend/app/services/pest_detection_service.py` — the class
  `PestDetectionService`, in particular `_apply_bias_mitigation`,
  `_detect_bias_patterns`, `_get_alternative_predictions`,
  `_clean_disease_name` and the static `disease_mapping`.
* `backend/app/routers/pest_detection.py` — the post-processing part of the
  endpoint `predict_disease_root` (threshold 0.45 fallback, severity mapping,
  treatment lookup) and `suggest_basic_treatment`.

Modelling conventions:
* Python floats are idealised as rationals (`ℚ`); `round(x, 4)` becomes
  round-half-to-even at 4 decimal digits (`round4`).
* `np.argsort` sorts by ascending value; its default introsort leaves the
  order of tied entries implementation-defined for arrays longer than 16
  elements (below that it runs a stable insertion sort).  The model fixes one
  concrete tie resolution — ascending index, i.e. a sort of `[0, …, n-1]`
  ordered lexicographically by (value, index) — and, except where a theorem
  explicitly concerns ties on a small array (where numpy provably uses this
  order), every property proved below is invariant under the tie resolution:
  it only uses the values at rank positions (order statistics) or facts that
  hold for all 22 labels at once.
* Python exceptions (numpy `IndexError`/`ValueError` on too-short inputs) are
  modelled by an `Option` result: `none` means the call raises.
* Python strings are modelled on `List Char`; only ASCII data occurs.
-/

-- The Batteries rational primitives are sealed; open them up so that concrete
-- evaluations can be settled by `decide`.
unseal Rat.mul Rat.inv Rat.add Rat.sub Rat.ofScientific

/-! ### String helpers (Python `str` operations used by the service) -/

/-- Does the second list start with the first one (pattern, then text)? -/
def charsBeginWith : List Char → List Char → Bool
  | [], _ => true
  | _ :: _, [] => false
  | a :: as, b :: bs => a = b && charsBeginWith as bs

/-- Python `needle in hay` substring containment, on character lists. -/
def hasSub (needle : List Char) : List Char → Bool
  | [] => charsBeginWith needle []
  | c :: cs => charsBeginWith needle (c :: cs) || hasSub needle cs

/-- Python `needle in hay` on strings. -/
def containsStr (hay needle : String) : Bool :=
  hasSub needle.data hay.data

/-- Fuel-driven worker for `replaceChars`; the fuel is an upper bound on the
number of characters still to be consumed, so it never runs out when started
with the length of the text. -/
def replaceCharsAux (pat rep : List Char) : Nat → List Char → List Char
  | 0, s => s
  | _ + 1, [] => []
  | fuel + 1, c :: cs =>
    if pat ≠ [] && charsBeginWith pat (c :: cs) then
      rep ++ replaceCharsAux pat rep fuel (List.drop pat.length (c :: cs))
    else
      c :: replaceCharsAux pat rep fuel cs

/-- Python `text.replace(pat, rep)`: left-to-right, non-overlapping. -/
def replaceChars (pat rep s : List Char) : List Char :=
  replaceCharsAux pat rep s.length s

/-- Python `text.split()` restricted to the space character (the only
whitespace occurring in the modelled data): splits on runs of spaces and
drops empty pieces.  The accumulator holds the current word reversed. -/
def splitSpacesAux (acc : List Char) : List Char → List (List Char)
  | [] => if acc = [] then [] else [acc.reverse]
  | c :: cs =>
    if c = ' ' then
      if acc = [] then splitSpacesAux [] cs else acc.reverse :: splitSpacesAux [] cs
    else
      splitSpacesAux (c :: acc) cs

/-- Python `text.strip()` restricted to spaces. -/
def stripChars (l : List Char) : List Char :=
  ((l.dropWhile (· = ' ')).reverse.dropWhile (· = ' ')).reverse

/-- Python `word.capitalize()`: first character upper-cased, rest lower-cased. -/
def pyCapitalize : List Char → List Char
  | [] => []
  | c :: cs => c.toUpper :: cs.map Char.toLower

/-- The lower-case connective words kept lower-case by `_clean_disease_name`. -/
def connectiveWords : List (List Char) :=
  ["and", "or", "the", "of", "in", "on", "at", "to", "for"].map String.data

/-- The per-word formatting step of `_clean_disease_name`. -/
def formatWord (w : List Char) : List Char :=
  if connectiveWords.contains (w.map Char.toLower) then w.map Char.toLower
  else if w.contains '(' || w.contains ')' then w
  else pyCapitalize w

/-- `PestDetectionService._clean_disease_name`. -/
def cleanDiseaseName (rawName : String) : String :=
  let s1 := replaceChars ("___".data) (" - ".data) rawName.data
  let s2 := replaceChars ("_".data) (" ".data) s1
  let s3 := replaceChars ("(including sour)".data) [] s2
  let s4 :=
    replaceChars ("Two-spotted spider mite".data) ("Two-spotted Spider Mite".data) s3
  let words := splitSpacesAux [] s4
  String.mk (stripChars (List.intercalate (" ".data) (words.map formatWord)))

/-! ### Numeric helpers -/

/-- Round a rational to the nearest integer, halves to the even neighbour
(Python 3 `round`). -/
def roundHalfEven (x : ℚ) : ℤ :=
  let f := ⌊x⌋
  let r := x - (f : ℚ)
  if r < 1 / 2 then f
  else if r > 1 / 2 then f + 1
  else if f % 2 = 0 then f else f + 1

/-- Python `round(x, 4)` under the rational idealisation of floats. -/
def round4 (x : ℚ) : ℚ :=
  (roundHalfEven (x * 10000) : ℚ) / 10000

/-- `np.max` on a nonempty vector (`0` as junk value on the empty one, which
the modelled code never reaches). -/
def npMax : List ℚ → ℚ
  | [] => 0
  | x :: xs => xs.foldl max x

/-! ### The ranker (`np.argsort` and derived quantities) -/

/-- The index order used to model `np.argsort`: ascending value, with ties
resolved by ascending index.  numpy only guarantees the value order (its
default sort is unstable above 16 elements); this is the model's concrete tie
resolution, and it coincides with numpy's behaviour on arrays of at most 16
elements, where introsort runs a stable insertion sort. -/
def idxLe (p : List ℚ) (i j : ℕ) : Prop :=
  p.getD i 0 < p.getD j 0 ∨ (p.getD i 0 = p.getD j 0 ∧ i ≤ j)

instance instDecIdxLe (p : List ℚ) : DecidableRel (idxLe p) := fun i j =>
  inferInstanceAs (Decidable (p.getD i 0 < p.getD j 0 ∨ (p.getD i 0 = p.getD j 0 ∧ i ≤ j)))

instance instTotalIdxLe (p : List ℚ) : IsTotal ℕ (idxLe p) := by
  constructor
  intro i j
  rcases lt_trichotomy (p.getD i 0) (p.getD j 0) with h | h | h
  · exact Or.inl (Or.inl h)
  · rcases Nat.le_total i j with hij | hij
    · exact Or.inl (Or.inr ⟨h, hij⟩)
    · exact Or.inr (Or.inr ⟨h.symm, hij⟩)
  · exact Or.inr (Or.inl h)

instance instTransIdxLe (p : List ℚ) : IsTrans ℕ (idxLe p) := by
  constructor
  rintro i j k (h₁ | ⟨h₁, hi₁⟩) (h₂ | ⟨h₂, hi₂⟩)
  · exact Or.inl (h₁.trans h₂)
  · exact Or.inl (h₂ ▸ h₁)
  · exact Or.inl (h₁ ▸ h₂)
  · exact Or.inr ⟨h₁.trans h₂, hi₁.trans hi₂⟩

instance instAntisymmIdxLe (p : List ℚ) : IsAntisymm ℕ (idxLe p) := by
  constructor
  rintro i j (h₁ | ⟨h₁, hi₁⟩) (h₂ | ⟨h₂, hi₂⟩)
  · exact absurd (h₁.trans h₂) (lt_irrefl _)
  · exact absurd h₁ (h₂ ▸ lt_irrefl _)
  · exact absurd h₂ (h₁ ▸ lt_irrefl _)
  · exact Nat.le_antisymm hi₁ hi₂

/-- `np.argsort(p)`: indices of `p` sorted by ascending value.  Ties follow
the model's resolution `idxLe` (ascending index); numpy leaves their order
implementation-defined for arrays longer than 16 elements. -/
def argsortAsc (p : List ℚ) : List ℕ :=
  List.insertionSort (idxLe p) (List.range p.length)

/-- `np.argsort(p)[::-1]` (the `sorted_indices` of `_detect_bias_patterns`). -/
def sortedDesc (p : List ℚ) : List ℕ :=
  (argsortAsc p).reverse

/-- `np.argsort(p)[-5:][::-1]` (the `top_indices` of `_apply_bias_mitigation`):
the last five of the ascending order, highest first. -/
def topIndices (p : List ℚ) : List ℕ :=
  (sortedDesc p).take 5

/-- The class id at (0-based) rank `k`. -/
def rankIdx (p : List ℚ) (k : ℕ) : ℕ :=
  (sortedDesc p).getD k 0

/-- The confidence at (0-based) rank `k`. -/
def rankConf (p : List ℚ) (k : ℕ) : ℚ :=
  p.getD (rankIdx p k) 0

/-- `np.sort`-like ascending value sort, used to model `np.partition(p, -2)[-2]`
(the (n-2)-th ascending order statistic is unaffected by how `partition`
arranges the rest). -/
def sortedValsAsc (p : List ℚ) : List ℚ :=
  List.insertionSort (· ≤ ·) p

/-- `np.partition(p, -2)[-2]`: the second-largest value counting multiplicity. -/
def secondMax (p : List ℚ) : ℚ :=
  (sortedValsAsc p).getD (p.length - 2) 0

/-- The ranked (class id, confidence) pairs, highest confidence first — the
spec's `rank()` output. -/
def rankedPairs (p : List ℚ) : List (ℕ × ℚ) :=
  (sortedDesc p).map (fun i => (i, p.getD i 0))

/-! ### Static configuration of `PestDetectionService` -/

/-- `self.disease_mapping` (22 classes), in class-id order. -/
def diseaseLabels : List String :=
  ["Healthy_Leaf", "Apple_Scab", "Apple_Black_Rot", "Apple_Cedar_Rust",
   "Cherry_Powdery_Mildew", "Corn_Gray_Leaf_Spot", "Corn_Common_Rust",
   "Corn_Northern_Blight", "Grape_Black_Rot", "Grape_Esca", "Grape_Leaf_Blight",
   "Peach_Bacterial_Spot", "Pepper_Bacterial_Spot", "Potato_Early_Blight",
   "Potato_Late_Blight", "Strawberry_Leaf_Scorch", "Tomato_Bacterial_Spot",
   "Tomato_Early_Blight", "Tomato_Late_Blight", "Tomato_Leaf_Mold",
   "Tomato_Septoria_Leaf_Spot", "Tomato_Spider_Mites"]

/-- `self.disease_mapping` as a partial map from class id to label. -/
def diseaseMapping (i : ℕ) : Option String :=
  diseaseLabels[i]?

/-- `self.disease_mapping.get(i, f"Unknown Disease {i}")` followed by
`_clean_disease_name`, for an arbitrary mapping `m` (the mapping is an
instance attribute of the service; `diseaseMapping` is its deployed value). -/
def cleanLabel (m : ℕ → Option String) (i : ℕ) : String :=
  cleanDiseaseName ((m i).getD ("Unknown Disease " ++ toString i))

/-- The `problematic_predictions` registry of `_detect_bias_patterns`. -/
def problematicPredictions : List String :=
  ["Cherry - Powdery Mildew", "Potato - Healthy", "Corn (maize) - Northern Leaf Blight"]

/-- `any(prob in disease_name for prob in problematic_predictions)`. -/
def registryHit (diseaseName : String) : Bool :=
  problematicPredictions.any (fun prob => containsStr diseaseName prob)

/-! ### `_detect_bias_patterns` and `_apply_bias_mitigation` -/

/-- Result of `_detect_bias_patterns`: either the `is_biased: False` dict or a
dict carrying an adjusted prediction, confidence and reason. -/
inductive BiasResult where
  | notBiased : BiasResult
  | biased (adjustedPrediction : String) (adjustedConfidence : ℚ) (reason : String) : BiasResult
deriving DecidableEq, Repr

/-- The dominance-gap tail of `_detect_bias_patterns` (reached whenever the
registry branch does not return).  `none` models the `ValueError` that
`np.partition(p, -2)` raises on a vector of fewer than two entries. -/
def dominanceCheck (m : ℕ → Option String) (p : List ℚ) (diseaseName : String) :
    Option BiasResult :=
  if 2 ≤ p.length then
    let maxConfidence := npMax p
    let sndMax := secondMax p
    if maxConfidence > 0.8 ∧ maxConfidence - sndMax > 0.6 then
      let secondDisease := cleanLabel m (rankIdx p 1)
      some (.biased
        ("High Confidence with Uncertainty: Likely " ++ diseaseName ++
          " but consider " ++ secondDisease)
        ((maxConfidence + sndMax) / 2)
        "Detected unusually high confidence gap - adding uncertainty to prevent overconfidence.")
    else
      some .notBiased
  else
    none

/-- `_detect_bias_patterns(predictions, disease_name, confidence)`.  `none`
models a numpy exception (indexing rank 2/3 of a too-short vector, or
`np.partition` on fewer than two entries). -/
def detectBiasPatterns (m : ℕ → Option String) (p : List ℚ) (diseaseName : String)
    (confidence : ℚ) : Option BiasResult :=
  if registryHit diseaseName then
    if confidence > 0.7 then
      if 3 ≤ p.length then
        let c2 := rankConf p 1
        let c3 := rankConf p 2
        let secondDisease := cleanLabel m (rankIdx p 1)
        let thirdDisease := cleanLabel m (rankIdx p 2)
        if confidence > 0.9 then
          some (.biased
            ("Uncertain Detection - Possibly " ++ secondDisease ++ " or " ++ thirdDisease)
            (max c2 c3)
            ("Model shows strong bias towards " ++ diseaseName ++
              ". Suggesting alternatives based on secondary predictions."))
        else
          some (.biased
            ("Multiple Possibilities: " ++ diseaseName ++ ", " ++ secondDisease ++
              ", or " ++ thirdDisease)
            ((confidence + c2 + c3) / 3)
            "Detected potential bias pattern. Providing multiple possibilities.")
      else
        none
    else
      dominanceCheck m p diseaseName
  else
    dominanceCheck m p diseaseName

/-- `_get_alternative_predictions(top_indices, top_confidences)`: entries at
positions `1 .. min(4, len(top_indices)) - 1` of the top-5 list, as
(cleaned label, rounded confidence) pairs. -/
def altPredictionsWith (m : ℕ → Option String) (p : List ℚ) : List (String × ℚ) :=
  (((topIndices p).take 4).drop 1).map (fun i => (cleanLabel m i, round4 (p.getD i 0)))

/-- The result dict of `_apply_bias_mitigation`.  Keys absent from a given
Python branch are modelled as `[]` / `none`. -/
structure PredResult where
  prediction : String
  confidence : ℚ
  status : String
  alternativePredictions : List (String × ℚ)
  originalPrediction : Option String
  note : Option String
deriving DecidableEq, Repr

/-- `_apply_bias_mitigation(predictions)` over an arbitrary disease mapping
`m`.  `none` models a numpy exception (empty input, or a bias/dominance branch
indexing past the end of a too-short vector). -/
def applyBiasMitigationWith (m : ℕ → Option String) (p : List ℚ) : Option PredResult :=
  if p = [] then
    none
  else
    let cls := rankIdx p 0
    let confidence := rankConf p 0
    let diseaseName := cleanLabel m cls
    if confidence < 0.6 then
      some ⟨"Uncertain - Low Confidence Detection", round4 confidence, "low_confidence",
        altPredictionsWith m p, none, none⟩
    else
      match detectBiasPatterns m p diseaseName confidence with
      | none => none
      | some (.biased pred conf reason) =>
        some ⟨pred, round4 conf, "bias_adjusted", [], some diseaseName, some reason⟩
      | some .notBiased =>
        if confidence > 0.95 then
          some ⟨diseaseName, round4 confidence, "high_confidence_with_alternatives",
            altPredictionsWith m p, none,
            some ("Very high confidence - consider alternative possibilities")⟩
        else
          some ⟨diseaseName, round4 confidence, "normal", [], none, none⟩

/-- `_apply_bias_mitigation` with the service's deployed `disease_mapping`. -/
def applyBiasMitigation (p : List ℚ) : Option PredResult :=
  applyBiasMitigationWith diseaseMapping p

/-- A hypothetical mapping whose class 1 cleans to the registry entry
"Cherry - Powdery Mildew"; used to exercise the registry branch, which the
deployed 22-label mapping can never reach. -/
def testMapping (i : ℕ) : Option String :=
  if i = 1 then some ("Cherry___Powdery_Mildew") else diseaseMapping i

/-- Does any taxonomy label (raw or cleaned) equal `s`?  Used to relate the
bias registry to the deployed taxonomy. -/
def taxonomyHasLabel (s : String) : Bool :=
  (List.range 22).any (fun i =>
    ((diseaseMapping i).getD ("")) == s || cleanLabel diseaseMapping i == s)

/-- A 22-entry probability vector with a dominant class 0 (0.9) and a distant
class 1 (0.05): the dominance-gap rule fires on it. -/
def c5vec : List ℚ :=
  [9/10, 1/20, 0, 0, 0, 0, 0, 0, 0, 0, 0, 0, 0, 0, 0, 0, 0, 0, 0, 0, 0, 0]

/-- The record `_apply_bias_mitigation` produces on `c5vec`. -/
def c5rec : PredResult :=
  ⟨"High Confidence with Uncertainty: Likely Healthy Leaf but consider Apple Scab",
    19/40, "bias_adjusted", [],
    some ("Healthy Leaf"),
    some ("Detected unusually high confidence gap - adding uncertainty to prevent overconfidence.")⟩

/-! ### The `POST /api/pest-detection` endpoint (`predict_disease_root`) -/

/-- Python `text.lower()` for the ASCII strings occurring here. -/
def pyLowerStr (s : String) : String :=
  String.mk (s.data.map Char.toLower)

/-- The literal `treatment_map` of `predict_disease_root`. -/
def treatmentMap (key : String) : Option String :=
  if key = "leaf spot" then some ("Use Copper-based fungicide and ensure proper sunlight")
  else if key = "powdery mildew" then some ("Apply sulfur-based spray and avoid overwatering")
  else if key = "healthy" then some ("No action needed")
  else none

/-- `suggest_basic_treatment` from the router. -/
def suggestBasicTreatment (diseaseName : String) : String :=
  let name := pyLowerStr diseaseName
  if containsStr name ("late blight") then
    ("Apply copper-based fungicide; remove infected leaves; improve air circulation.")
  else if containsStr name ("early blight") then
    ("Use fungicide (chlorothalonil/mancozeb); remove lower leaves; mulch to reduce soil splash.")
  else if containsStr name ("bacterial") then
    ("Remove infected tissue; apply copper sprays; avoid overhead irrigation.")
  else if containsStr name ("powdery mildew") then
    ("Use potassium bicarbonate or sulfur sprays; improve ventilation; avoid high humidity.")
  else if containsStr name ("leaf mold") then
    ("Increase airflow; reduce humidity; consider chlorothalonil-based treatment.")
  else if containsStr name ("rust") then
    ("Apply appropriate fungicide (strobilurin/triazole); remove heavily infected leaves.")
  else if containsStr name ("mite") then
    ("Use miticide or insecticidal soap; monitor underside of leaves; improve plant vigor.")
  else if containsStr name ("spot") then
    ("Copper-based fungicide; remove infected leaves; avoid wetting foliage.")
  else
    ("Use integrated pest management: monitor, remove infected parts, consider organic or copper-based treatments.")

/-- The JSON body returned by `predict_disease_root` on the success path. -/
structure RootResponse where
  status : String
  disease : String
  confidence : ℚ
  severity : String
  treatment : String
  notes : String
deriving DecidableEq, Repr

/-- The post-inference part of `predict_disease_root`: label/confidence
extraction, the `< 0.45` Unknown fallback, severity mapping and treatment
lookup.  `raw` is the dict returned by the service
(`predict_from_image_bytes` → `_apply_bias_mitigation`). -/
def predictDiseaseRoot (raw : PredResult) : RootResponse :=
  let predictedLabel :=
    String.mk (stripChars (if raw.prediction = "" then ("Unknown").data else raw.prediction.data))
  let confidence := raw.confidence
  if confidence < 0.45 then
    ⟨"success", "Unknown", confidence, "low",
      "Unable to identify. Please upload clearer image.",
      "Upload clearer image if confidence is low."⟩
  else
    let severity :=
      if confidence ≥ 0.75 then ("high" : String)
      else if confidence ≥ 0.6 then ("medium")
      else ("low")
    let treatment :=
      (treatmentMap (pyLowerStr predictedLabel)).getD (suggestBasicTreatment predictedLabel)
    ⟨"success", predictedLabel, round4 confidence, severity, treatment,
      "Upload clearer image if confidence is low."⟩

/-! ### Correctness lemmas for the ranker -/

theorem argsortAsc_perm (p : List ℚ) : (argsortAsc p).Perm (List.range p.length) :=
  List.perm_insertionSort _ _

theorem argsortAsc_sorted (p : List ℚ) : List.Sorted (idxLe p) (argsortAsc p) :=
  List.sorted_insertionSort _ _

theorem length_argsortAsc (p : List ℚ) : (argsortAsc p).length = p.length := by
  simpa using (argsortAsc_perm p).length_eq

theorem length_sortedDesc (p : List ℚ) : (sortedDesc p).length = p.length := by
  simp [sortedDesc, length_argsortAsc]

theorem length_sortedValsAsc (p : List ℚ) : (sortedValsAsc p).length = p.length := by
  rw [sortedValsAsc]
  exact (List.perm_insertionSort (· ≤ ·) p).length_eq

theorem map_getD_range (p : List ℚ) :
    (List.range p.length).map (fun i => p.getD i 0) = p := by
  apply List.ext_getElem (by simp)
  intro i h1 h2
  simp [List.getD_eq_getElem?_getD, List.getElem?_eq_getElem h2]

theorem idxLe_val_le {p : List ℚ} {i j : ℕ} (h : idxLe p i j) :
    p.getD i 0 ≤ p.getD j 0 := by
  rcases h with h | ⟨h, _⟩
  · exact le_of_lt h
  · exact le_of_eq h

theorem sortedValsAsc_sorted (p : List ℚ) :
    List.Sorted (· ≤ ·) (sortedValsAsc p) :=
  List.sorted_insertionSort _ p

theorem argsort_map_getD (p : List ℚ) :
    (argsortAsc p).map (fun i => p.getD i 0) = sortedValsAsc p := by
  apply List.eq_of_perm_of_sorted (r := (· ≤ ·))
  · have h1 : ((argsortAsc p).map (fun i => p.getD i 0)).Perm
        ((List.range p.length).map (fun i => p.getD i 0)) := (argsortAsc_perm p).map _
    have h2 : ((List.range p.length).map (fun i => p.getD i 0)).Perm (sortedValsAsc p) := by
      rw [map_getD_range p]
      exact (List.perm_insertionSort (· ≤ ·) p).symm
    exact h1.trans h2
  · exact List.Pairwise.map _ (fun a b hab => idxLe_val_le hab) (argsortAsc_sorted p)
  · exact sortedValsAsc_sorted p

theorem sortedDesc_perm_range (p : List ℚ) : (sortedDesc p).Perm (List.range p.length) :=
  (List.reverse_perm _).trans (argsortAsc_perm p)

theorem sortedDesc_map_getD (p : List ℚ) :
    (sortedDesc p).map (fun i => p.getD i 0) = (sortedValsAsc p).reverse := by
  rw [sortedDesc, List.map_reverse, argsort_map_getD]

theorem rankIdx_lt_length {p : List ℚ} {k : ℕ} (hk : k < p.length) :
    rankIdx p k < p.length := by
  have hlen : k < (sortedDesc p).length := by rw [length_sortedDesc]; exact hk
  have hmem : rankIdx p k ∈ sortedDesc p := by
    rw [rankIdx, List.getD_eq_getElem _ _ hlen]
    exact List.getElem_mem hlen
  have := (sortedDesc_perm_range p).mem_iff.mp hmem
  exact List.mem_range.mp this

theorem rankConf_eq_sortedVals {p : List ℚ} {k : ℕ} (hk : k < p.length) :
    rankConf p k = (sortedValsAsc p).getD (p.length - 1 - k) 0 := by
  have hlen : k < (sortedDesc p).length := by rw [length_sortedDesc]; exact hk
  have hmap : ((sortedDesc p).map (fun i => p.getD i 0)).getD k 0 =
      ((sortedValsAsc p).reverse).getD k 0 := by rw [sortedDesc_map_getD]
  have hklen2 : k < ((sortedDesc p).map (fun i => p.getD i 0)).length := by
    rw [List.length_map]; exact hlen
  have hkrev : k < ((sortedValsAsc p).reverse).length := by
    rw [List.length_reverse, length_sortedValsAsc]; exact hk
  have hidx : p.length - 1 - k < (sortedValsAsc p).length := by
    rw [length_sortedValsAsc]; omega
  rw [rankConf, rankIdx, List.getD_eq_getElem _ _ hlen]
  rw [List.getD_eq_getElem _ _ hklen2, List.getD_eq_getElem _ _ hkrev] at hmap
  rw [List.getElem_map] at hmap
  rw [List.getElem_reverse] at hmap
  rw [List.getD_eq_getElem _ _ hidx]
  rw [hmap]
  congr 1
  rw [length_sortedValsAsc]

theorem foldl_max_ge (xs : List ℚ) (x : ℚ) :
    x ≤ xs.foldl max x ∧ ∀ y ∈ xs, y ≤ xs.foldl max x := by
  induction xs generalizing x with
  | nil => exact ⟨le_refl x, by simp⟩
  | cons a as ih =>
    refine ⟨?_, ?_⟩
    · exact le_trans (le_max_left x a) (ih (max x a)).1
    · intro y hy
      rcases List.mem_cons.mp hy with rfl | hy
      · exact le_trans (le_max_right x y) (ih (max x y)).1
      · exact (ih (max x a)).2 y hy

theorem foldl_max_mem (xs : List ℚ) (x : ℚ) :
    xs.foldl max x = x ∨ xs.foldl max x ∈ xs := by
  induction xs generalizing x with
  | nil => exact Or.inl rfl
  | cons a as ih =>
    rcases ih (max x a) with h | h
    · rcases le_total x a with hxa | hxa
      · right
        rw [List.foldl_cons, h, max_eq_right hxa]
        exact List.mem_cons_self a as
      · left
        rw [List.foldl_cons, h, max_eq_left hxa]
    · right
      exact List.mem_cons_of_mem a h

theorem le_npMax {p : List ℚ} {x : ℚ} (hx : x ∈ p) : x ≤ npMax p := by
  cases p with
  | nil => cases hx
  | cons a as =>
    rcases List.mem_cons.mp hx with rfl | hx
    · exact (foldl_max_ge as x).1
    · exact (foldl_max_ge as a).2 x hx

theorem npMax_mem {p : List ℚ} (hp : p ≠ []) : npMax p ∈ p := by
  cases p with
  | nil => exact absurd rfl hp
  | cons a as =>
    rcases foldl_max_mem as a with h | h
    · rw [npMax, h]; exact List.mem_cons_self a as
    · exact List.mem_cons_of_mem a h

theorem sortedVals_getD_le {p : List ℚ} {i j : ℕ} (hij : i ≤ j) (hj : j < p.length) :
    (sortedValsAsc p).getD i 0 ≤ (sortedValsAsc p).getD j 0 := by
  have hj2 : j < (sortedValsAsc p).length := by rw [length_sortedValsAsc]; exact hj
  have hi2 : i < (sortedValsAsc p).length := lt_of_le_of_lt hij hj2
  rw [List.getD_eq_getElem _ _ hi2, List.getD_eq_getElem _ _ hj2]
  rcases lt_or_eq_of_le hij with h | h
  · exact List.pairwise_iff_getElem.mp (sortedValsAsc_sorted p) i j hi2 hj2 h
  · subst h; exact le_refl _

theorem mem_sortedValsAsc {p : List ℚ} {x : ℚ} : x ∈ sortedValsAsc p ↔ x ∈ p :=
  (List.perm_insertionSort (· ≤ ·) p).mem_iff

theorem rankConf_zero_eq_npMax {p : List ℚ} (hp : p ≠ []) : rankConf p 0 = npMax p := by
  have hn : 0 < p.length := List.length_pos.mpr hp
  rw [rankConf_eq_sortedVals hn]
  have hidx : p.length - 1 - 0 < (sortedValsAsc p).length := by
    rw [length_sortedValsAsc]; omega
  have hval_mem : (sortedValsAsc p).getD (p.length - 1 - 0) 0 ∈ p := by
    rw [List.getD_eq_getElem _ _ hidx]
    exact mem_sortedValsAsc.mp (List.getElem_mem hidx)
  apply le_antisymm (le_npMax hval_mem)
  have hmax_mem : npMax p ∈ sortedValsAsc p := mem_sortedValsAsc.mpr (npMax_mem hp)
  obtain ⟨j, hjlen, hjval⟩ := List.mem_iff_getElem.mp hmax_mem
  have hjle : j ≤ p.length - 1 - 0 := by
    rw [length_sortedValsAsc] at hjlen; omega
  have := sortedVals_getD_le hjle (by omega : p.length - 1 - 0 < p.length)
  rw [List.getD_eq_getElem _ _ hjlen, hjval] at this
  exact this

theorem rankConf_one_eq_secondMax {p : List ℚ} (h2 : 2 ≤ p.length) :
    rankConf p 1 = secondMax p := by
  have h1 : 1 < p.length := by omega
  have he : p.length - 1 - 1 = p.length - 2 := by omega
  rw [rankConf_eq_sortedVals h1, he, secondMax]

/-! ### Order and uniqueness of the ranked output -/

theorem sortedDesc_nodup (p : List ℚ) : (sortedDesc p).Nodup :=
  ((sortedDesc_perm_range p).nodup_iff).mpr (List.nodup_range _)

theorem sortedDesc_pairwise (p : List ℚ) :
    (sortedDesc p).Pairwise (fun i j => idxLe p j i) := by
  rw [sortedDesc]
  exact (List.pairwise_reverse).mpr (argsortAsc_sorted p)

theorem rankedPairs_fst (p : List ℚ) : (rankedPairs p).map Prod.fst = sortedDesc p := by
  simp [rankedPairs, List.map_map, Function.comp_def]

theorem rankedPairs_pairwise (p : List ℚ) :
    (rankedPairs p).Pairwise
      (fun a b => b.2 ≤ a.2 ∧ (a.2 = b.2 → b.1 < a.1)) := by
  have h1 := sortedDesc_pairwise p
  have h2 : (sortedDesc p).Pairwise (· ≠ ·) := sortedDesc_nodup p
  have h3 : (sortedDesc p).Pairwise
      (fun i j => p.getD j 0 ≤ p.getD i 0 ∧ (p.getD i 0 = p.getD j 0 → j < i)) := by
    refine h1.imp₂ (fun i j hij hne => ?_) h2
    refine ⟨idxLe_val_le hij, fun heq => ?_⟩
    rcases hij with h | ⟨_, hle⟩
    · exact absurd (heq ▸ h) (lt_irrefl _)
    · exact lt_of_le_of_ne hle (Ne.symm hne)
  exact List.Pairwise.map _ (fun i j h => h) h3

/-! ### Branch lemmas for the decision policy -/
theorem applyBias_low (m : ℕ → Option String) (p : List ℚ) (hp : p ≠ [])
    (h : rankConf p 0 < 0.6) :
    applyBiasMitigationWith m p =
      some ⟨"Uncertain - Low Confidence Detection", round4 (rankConf p 0), "low_confidence",
        altPredictionsWith m p, none, none⟩ := by
  simp only [applyBiasMitigationWith, if_neg hp, if_pos h]

theorem detect_miss (m : ℕ → Option String) (p : List ℚ) (name : String) (c : ℚ)
    (hreg : registryHit name = false) :
    detectBiasPatterns m p name c = dominanceCheck m p name := by
  simp [detectBiasPatterns, hreg]

theorem detect_hit_fires (m : ℕ → Option String) (p : List ℚ) (name : String) (c : ℚ)
    (hreg : registryHit name = true) (hc : c > 0.7) (h3 : 3 ≤ p.length) :
    detectBiasPatterns m p name c =
      (if c > 0.9 then
        some (.biased
          ("Uncertain Detection - Possibly " ++ cleanLabel m (rankIdx p 1) ++ " or " ++
            cleanLabel m (rankIdx p 2))
          (max (rankConf p 1) (rankConf p 2))
          ("Model shows strong bias towards " ++ name ++
            ". Suggesting alternatives based on secondary predictions."))
      else
        some (.biased
          ("Multiple Possibilities: " ++ name ++ ", " ++ cleanLabel m (rankIdx p 1) ++
            ", or " ++ cleanLabel m (rankIdx p 2))
          ((c + rankConf p 1 + rankConf p 2) / 3)
          "Detected potential bias pattern. Providing multiple possibilities.")) := by
  simp only [detectBiasPatterns, hreg, if_pos hc, if_pos h3, if_true]

theorem dominance_fires (m : ℕ → Option String) (p : List ℚ) (name : String)
    (h2 : 2 ≤ p.length) (hd : npMax p > 0.8 ∧ npMax p - secondMax p > 0.6) :
    dominanceCheck m p name =
      some (.biased
        ("High Confidence with Uncertainty: Likely " ++ name ++ " but consider " ++
          cleanLabel m (rankIdx p 1))
        ((npMax p + secondMax p) / 2)
        "Detected unusually high confidence gap - adding uncertainty to prevent overconfidence.") := by
  simp only [dominanceCheck, if_pos h2, if_pos hd]

theorem dominance_idle (m : ℕ → Option String) (p : List ℚ) (name : String)
    (h2 : 2 ≤ p.length) (hd : ¬ (npMax p > 0.8 ∧ npMax p - secondMax p > 0.6)) :
    dominanceCheck m p name = some .notBiased := by
  simp only [dominanceCheck, if_pos h2, if_neg hd]

theorem applyBias_biased (m : ℕ → Option String) (p : List ℚ) (hp : p ≠ [])
    (hc : ¬ rankConf p 0 < 0.6) (pr : String) (c : ℚ) (r : String)
    (hdet : detectBiasPatterns m p (cleanLabel m (rankIdx p 0)) (rankConf p 0) =
      some (.biased pr c r)) :
    applyBiasMitigationWith m p =
      some ⟨pr, round4 c, "bias_adjusted", [], some (cleanLabel m (rankIdx p 0)), some r⟩ := by
  simp only [applyBiasMitigationWith, if_neg hp, if_neg hc, hdet]

theorem applyBias_notBiased (m : ℕ → Option String) (p : List ℚ) (hp : p ≠ [])
    (hc : ¬ rankConf p 0 < 0.6)
    (hdet : detectBiasPatterns m p (cleanLabel m (rankIdx p 0)) (rankConf p 0) =
      some .notBiased) :
    applyBiasMitigationWith m p =
      (if rankConf p 0 > 0.95 then
        some ⟨cleanLabel m (rankIdx p 0), round4 (rankConf p 0),
          "high_confidence_with_alternatives", altPredictionsWith m p, none,
          some ("Very high confidence - consider alternative possibilities")⟩
      else
        some ⟨cleanLabel m (rankIdx p 0), round4 (rankConf p 0), "normal", [], none, none⟩) := by
  simp only [applyBiasMitigationWith, if_neg hp, if_neg hc, hdet]

/-! ### Claim theorems -/

/-- No cleaned label of the deployed 22-class mapping contains any registry
entry as a substring, so the registry test never succeeds on it. -/
theorem registry_never_matches_mapping :
    ∀ i < 22, registryHit (cleanLabel diseaseMapping i) = false := by decide

/-- C1 (counterexample): on `[0.3, 0.25, 0.2, 0.15, 0.1]` the low-confidence
branch labels the result "Uncertain - Low Confidence Detection", not
"Unknown", and returns a non-empty alternatives list. -/
theorem c1_claim_counterexample :
    (applyBiasMitigation [3/10, 1/4, 1/5, 3/20, 1/10]).map (fun r => r.prediction) =
      some ("Uncertain - Low Confidence Detection") ∧
    (applyBiasMitigation [3/10, 1/4, 1/5, 3/20, 1/10]).map (fun r => r.prediction) ≠
      some ("Unknown") ∧
    (applyBiasMitigation [3/10, 1/4, 1/5, 3/20, 1/10]).map (fun r => r.alternativePredictions) ≠
      some [] := by decide

/-- C1 (amended): whenever the rank-1 confidence is strictly below 0.6, the
service returns status `low_confidence`, label "Uncertain - Low Confidence
Detection", the rank-1 confidence rounded to 4 decimals, and the top-3
alternative predictions. -/
theorem c1_low_confidence_rule (p : List ℚ) (hp : p ≠ []) (h : rankConf p 0 < 0.6) :
    applyBiasMitigation p =
      some ⟨"Uncertain - Low Confidence Detection", round4 (rankConf p 0), "low_confidence",
        altPredictionsWith diseaseMapping p, none, none⟩ :=
  applyBias_low diseaseMapping p hp h

theorem c1_low_confidence_rule_witness :
    (([3/10, 1/4, 1/5, 3/20, 1/10] : List ℚ) ≠ [] ∧
      rankConf [3/10, 1/4, 1/5, 3/20, 1/10] 0 < 0.6) ∧
    applyBiasMitigation [3/10, 1/4, 1/5, 3/20, 1/10] =
      some ⟨"Uncertain - Low Confidence Detection",
        round4 (rankConf [3/10, 1/4, 1/5, 3/20, 1/10] 0), "low_confidence",
        altPredictionsWith diseaseMapping [3/10, 1/4, 1/5, 3/20, 1/10], none, none⟩ :=
  ⟨⟨by decide, by decide⟩, c1_low_confidence_rule _ (by decide) (by decide)⟩

/-- C2: when the rank-1 label misses the registry, the rank-1 confidence
exceeds 0.95 (and 0.8) and the gap to rank 2 exceeds 0.6, the dominance-gap
rule fires before the over-confident rule: the status is `bias_adjusted`,
never `high_confidence_with_alternatives`. -/
theorem c2_dominance_precedes_overconfident (m : ℕ → Option String) (p : List ℚ)
    (h2 : 2 ≤ p.length)
    (hreg : registryHit (cleanLabel m (rankIdx p 0)) = false)
    (hvh : rankConf p 0 > 0.95) (hdc : rankConf p 0 > 0.8)
    (hgap : rankConf p 0 - rankConf p 1 > 0.6) :
    ∃ r : PredResult, applyBiasMitigationWith m p = some r ∧
      r.status = "bias_adjusted" ∧ r.status ≠ "high_confidence_with_alternatives" := by
  have hp : p ≠ [] := by
    intro h
    rw [h] at h2
    simp at h2
  have hmax := rankConf_zero_eq_npMax hp
  have hsm := rankConf_one_eq_secondMax h2
  have hc : ¬ rankConf p 0 < 0.6 := by linarith
  have hdet := detect_miss m p (cleanLabel m (rankIdx p 0)) (rankConf p 0) hreg
  have hdom := dominance_fires m p (cleanLabel m (rankIdx p 0)) h2
    ⟨by rw [← hmax]; exact hdc, by rw [← hmax, ← hsm]; exact hgap⟩
  refine ⟨_, applyBias_biased m p hp hc _ _ _ (hdet.trans hdom), rfl, ?_⟩
  show ("bias_adjusted" : String) ≠ "high_confidence_with_alternatives"
  decide

theorem c2_dominance_precedes_overconfident_witness :
    (2 ≤ ([97/100, 1/100, 1/100, 1/200, 1/200] : List ℚ).length ∧
      registryHit (cleanLabel diseaseMapping
        (rankIdx [97/100, 1/100, 1/100, 1/200, 1/200] 0)) = false ∧
      rankConf [97/100, 1/100, 1/100, 1/200, 1/200] 0 > 0.95 ∧
      rankConf [97/100, 1/100, 1/100, 1/200, 1/200] 0 > 0.8 ∧
      rankConf [97/100, 1/100, 1/100, 1/200, 1/200] 0 -
        rankConf [97/100, 1/100, 1/100, 1/200, 1/200] 1 > 0.6) ∧
    (∃ r : PredResult,
      applyBiasMitigationWith diseaseMapping [97/100, 1/100, 1/100, 1/200, 1/200] = some r ∧
      r.status = "bias_adjusted" ∧ r.status ≠ "high_confidence_with_alternatives") :=
  ⟨⟨by decide, by decide, by decide, by decide, by decide⟩,
    c2_dominance_precedes_overconfident diseaseMapping _ (by decide) (by decide) (by decide)
      (by decide) (by decide)⟩

/-- C3 (counterexample): with a mapping whose rank-1 label cleans to the
registry entry "Cherry - Powdery Mildew" and rank-1 confidence exactly 0.7,
the bias rule does NOT fire (the code tests `confidence > 0.7`, not `≥`):
the status is `normal`, not `bias_adjusted`. -/
theorem c3_claim_counterexample :
    registryHit (cleanLabel testMapping (rankIdx [1/10, 7/10, 1/10, 1/20, 1/20] 0)) = true ∧
    rankConf [1/10, 7/10, 1/10, 1/20, 1/20] 0 = 0.7 ∧
    (applyBiasMitigationWith testMapping [1/10, 7/10, 1/10, 1/20, 1/20]).map
      (fun r => r.status) = some ("normal") := by decide

/-- C3 (amended): the known-bias override fires only for confidence strictly
greater than 0.7: in that case the status is `bias_adjusted`. -/
theorem c3_bias_trigger_strict (m : ℕ → Option String) (p : List ℚ) (h3 : 3 ≤ p.length)
    (hreg : registryHit (cleanLabel m (rankIdx p 0)) = true)
    (hc : rankConf p 0 > 0.7) :
    ∃ r : PredResult, applyBiasMitigationWith m p = some r ∧ r.status = "bias_adjusted" := by
  have hp : p ≠ [] := by
    intro h
    rw [h] at h3
    simp at h3
  have hlow : ¬ rankConf p 0 < 0.6 := by linarith
  have hdet := detect_hit_fires m p (cleanLabel m (rankIdx p 0)) (rankConf p 0) hreg hc h3
  by_cases h9 : rankConf p 0 > 0.9
  · rw [if_pos h9] at hdet
    exact ⟨_, applyBias_biased m p hp hlow _ _ _ hdet, rfl⟩
  · rw [if_neg h9] at hdet
    exact ⟨_, applyBias_biased m p hp hlow _ _ _ hdet, rfl⟩

theorem c3_bias_trigger_strict_witness :
    (3 ≤ ([1/20, 3/4, 1/10, 1/20, 1/20] : List ℚ).length ∧
      registryHit (cleanLabel testMapping (rankIdx [1/20, 3/4, 1/10, 1/20, 1/20] 0)) = true ∧
      rankConf [1/20, 3/4, 1/10, 1/20, 1/20] 0 > 0.7) ∧
    (∃ r : PredResult,
      applyBiasMitigationWith testMapping [1/20, 3/4, 1/10, 1/20, 1/20] = some r ∧
      r.status = "bias_adjusted") :=
  ⟨⟨by decide, by decide, by decide⟩,
    c3_bias_trigger_strict testMapping _ (by decide) (by decide) (by decide)⟩

/-- C4 (counterexample): the registry entry "Cherry - Powdery Mildew" is not a
taxonomy label, yet no error is ever raised: classification requests are
served normally. -/
theorem c4_claim_counterexample :
    problematicPredictions.contains ("Cherry - Powdery Mildew") = true ∧
    taxonomyHasLabel ("Cherry - Powdery Mildew") = false ∧
    applyBiasMitigation [3/5, 1/5, 1/10, 1/20, 1/20] =
      some ⟨"Healthy Leaf", 3/5, "normal", [], none, none⟩ := by decide

/-- C4 (amended): no ConfigError exists: every registry label is absent from
the taxonomy (raw and cleaned) and the mismatch is silently ignored, with
classification served regardless. -/
theorem c4_no_startup_validation :
    problematicPredictions.all (fun s => !(taxonomyHasLabel s)) = true ∧
    applyBiasMitigation [7/10, 1/10, 1/10, 1/20, 1/50] =
      some ⟨"Healthy Leaf", 7/10, "normal", [], none, none⟩ := by decide

/-- C5: over the deployed 22-class taxonomy the registry branch never fires, so
every `bias_adjusted` record carries the dominance-gap label format and the
dominance confidence formula. -/
theorem c5_registry_unreachable (p : List ℚ) (hlen : p.length = 22) (r : PredResult)
    (hr : applyBiasMitigation p = some r) (hstat : r.status = "bias_adjusted") :
    (∀ i < 22, registryHit (cleanLabel diseaseMapping i) = false) ∧
    r.prediction = "High Confidence with Uncertainty: Likely " ++
        cleanLabel diseaseMapping (rankIdx p 0) ++ " but consider " ++
        cleanLabel diseaseMapping (rankIdx p 1) ∧
    r.confidence = round4 ((npMax p + secondMax p) / 2) ∧
    r.originalPrediction = some (cleanLabel diseaseMapping (rankIdx p 0)) := by
  refine ⟨registry_never_matches_mapping, ?_⟩
  have hp : p ≠ [] := by
    intro h
    rw [h] at hlen
    simp at hlen
  have h2 : 2 ≤ p.length := by omega
  have hidx0 : rankIdx p 0 < 22 := by
    have := rankIdx_lt_length (p := p) (k := 0) (by omega)
    omega
  have hreg : registryHit (cleanLabel diseaseMapping (rankIdx p 0)) = false :=
    registry_never_matches_mapping _ hidx0
  rw [applyBiasMitigation] at hr
  by_cases hc : rankConf p 0 < 0.6
  · rw [applyBias_low diseaseMapping p hp hc, Option.some.injEq] at hr
    subst hr
    have hfalse : ("low_confidence" : String) = "bias_adjusted" := hstat
    exact absurd hfalse (by decide)
  · have hdet := detect_miss diseaseMapping p (cleanLabel diseaseMapping (rankIdx p 0))
      (rankConf p 0) hreg
    by_cases hd : npMax p > 0.8 ∧ npMax p - secondMax p > 0.6
    · rw [dominance_fires diseaseMapping p _ h2 hd] at hdet
      rw [applyBias_biased diseaseMapping p hp hc _ _ _ hdet, Option.some.injEq] at hr
      subst hr
      exact ⟨rfl, rfl, rfl⟩
    · rw [dominance_idle diseaseMapping p _ h2 hd] at hdet
      rw [applyBias_notBiased diseaseMapping p hp hc hdet] at hr
      by_cases h95 : rankConf p 0 > 0.95
      · rw [if_pos h95, Option.some.injEq] at hr
        subst hr
        have hfalse : ("high_confidence_with_alternatives" : String) = "bias_adjusted" := hstat
        exact absurd hfalse (by decide)
      · rw [if_neg h95, Option.some.injEq] at hr
        subst hr
        have hfalse : ("normal" : String) = "bias_adjusted" := hstat
        exact absurd hfalse (by decide)

set_option maxRecDepth 40000 in
theorem c5_registry_unreachable_witness :
    (∀ i < 22, registryHit (cleanLabel diseaseMapping i) = false) ∧
    c5rec.prediction = "High Confidence with Uncertainty: Likely " ++
        cleanLabel diseaseMapping (rankIdx c5vec 0) ++ " but consider " ++
        cleanLabel diseaseMapping (rankIdx c5vec 1) ∧
    c5rec.confidence = round4 ((npMax c5vec + secondMax c5vec) / 2) ∧
    c5rec.originalPrediction = some (cleanLabel diseaseMapping (rankIdx c5vec 0)) :=
  c5_registry_unreachable c5vec (by decide) c5rec (by decide) (by decide)

/-- C6 (counterexample): on the tied vector [0.5, 0.5] the ranked output is
[(1, 0.5), (0, 0.5)]: equal confidences are ordered by DESCENDING class id,
falsifying the ascending tie-break of the claim.  (At length 2 numpy's
introsort runs a stable insertion sort, so here the model's tie resolution
provably matches `np.argsort`.) -/
theorem c6_claim_counterexample :
    rankedPairs [1/2, 1/2] = [(1, 1/2), (0, 1/2)] ∧
    ¬ (rankedPairs [1/2, 1/2]).Pairwise (fun a b => a.2 = b.2 → a.1 < b.1) := by decide

/-- C6 (amended): for every vector the ranked output is a permutation of all
class ids with non-increasing confidence.  The spec's ascending tie-break
fails (see the counterexample); no universal tie-order clause holds of the
program, because numpy leaves the order of tied entries
implementation-defined for arrays longer than 16 elements, and deployed
vectors have 22. -/
theorem c6_rank_order (p : List ℚ) :
    ((rankedPairs p).map Prod.fst).Perm (List.range p.length) ∧
    (rankedPairs p).Pairwise (fun a b => b.2 ≤ a.2) := by
  constructor
  · rw [rankedPairs_fst]
    exact sortedDesc_perm_range p
  · exact (rankedPairs_pairwise p).imp (fun h => h.1)

/-- C7 (counterexample): the severe-override confidence is rounded to 4
decimals, so it can differ from `max(c2, c3)`: here `max(c2, c3) = 1/32 =
0.03125` but the returned confidence is `0.0312`. -/
theorem c7_claim_counterexample :
    registryHit (cleanLabel testMapping (rankIdx [1/50000, 93/100, 1/32, 1/100, 1/100] 0)) =
      true ∧
    rankConf [1/50000, 93/100, 1/32, 1/100, 1/100] 0 > 0.9 ∧
    max (rankConf [1/50000, 93/100, 1/32, 1/100, 1/100] 1)
      (rankConf [1/50000, 93/100, 1/32, 1/100, 1/100] 2) = 1/32 ∧
    (applyBiasMitigationWith testMapping [1/50000, 93/100, 1/32, 1/100, 1/100]).map
      (fun r => r.confidence) = some (39/1250) ∧
    (39/1250 : ℚ) ≠ 1/32 := by decide

/-- C7 (amended): for a registry-flagged rank-1 label with confidence strictly
above 0.9, the result is `bias_adjusted` with the "Uncertain Detection -
Possibly {L2} or {L3}" label, confidence `round4 (max c2 c3)` and the rank-1
label as original prediction. -/
theorem c7_severe_bias_override (m : ℕ → Option String) (p : List ℚ) (h3 : 3 ≤ p.length)
    (hreg : registryHit (cleanLabel m (rankIdx p 0)) = true)
    (hc : rankConf p 0 > 0.9) :
    applyBiasMitigationWith m p = some ⟨
      "Uncertain Detection - Possibly " ++ cleanLabel m (rankIdx p 1) ++ " or " ++
        cleanLabel m (rankIdx p 2),
      round4 (max (rankConf p 1) (rankConf p 2)),
      "bias_adjusted", [],
      some (cleanLabel m (rankIdx p 0)),
      some ("Model shows strong bias towards " ++ cleanLabel m (rankIdx p 0) ++
        ". Suggesting alternatives based on secondary predictions.")⟩ := by
  have hp : p ≠ [] := by
    intro h
    rw [h] at h3
    simp at h3
  have hc7 : rankConf p 0 > 0.7 := by linarith
  have hlow : ¬ rankConf p 0 < 0.6 := by linarith
  have hdet := detect_hit_fires m p (cleanLabel m (rankIdx p 0)) (rankConf p 0) hreg hc7 h3
  rw [if_pos hc] at hdet
  exact applyBias_biased m p hp hlow _ _ _ hdet

theorem c7_severe_bias_override_witness :
    (3 ≤ ([1/50, 93/100, 3/100, 1/100, 1/100] : List ℚ).length ∧
      registryHit (cleanLabel testMapping (rankIdx [1/50, 93/100, 3/100, 1/100, 1/100] 0)) =
        true ∧
      rankConf [1/50, 93/100, 3/100, 1/100, 1/100] 0 > 0.9) ∧
    applyBiasMitigationWith testMapping [1/50, 93/100, 3/100, 1/100, 1/100] = some ⟨
      "Uncertain Detection - Possibly " ++
        cleanLabel testMapping (rankIdx [1/50, 93/100, 3/100, 1/100, 1/100] 1) ++ " or " ++
        cleanLabel testMapping (rankIdx [1/50, 93/100, 3/100, 1/100, 1/100] 2),
      round4 (max (rankConf [1/50, 93/100, 3/100, 1/100, 1/100] 1)
        (rankConf [1/50, 93/100, 3/100, 1/100, 1/100] 2)),
      "bias_adjusted", [],
      some (cleanLabel testMapping (rankIdx [1/50, 93/100, 3/100, 1/100, 1/100] 0)),
      some ("Model shows strong bias towards " ++
        cleanLabel testMapping (rankIdx [1/50, 93/100, 3/100, 1/100, 1/100] 0) ++
        ". Suggesting alternatives based on secondary predictions.")⟩ :=
  ⟨⟨by decide, by decide, by decide⟩,
    c7_severe_bias_override testMapping _ (by decide) (by decide) (by decide)⟩

/-- C8 (counterexample): a 5-entry vector is inconsistent with the 22-class
taxonomy, yet no InputError occurs: a normal record is returned. -/
theorem c8_claim_counterexample :
    ([13/20, 1/5, 1/10, 3/100, 1/50] : List ℚ).length ≠ 22 ∧
    applyBiasMitigation [13/20, 1/5, 1/10, 3/100, 1/50] =
      some ⟨"Healthy Leaf", 13/20, "normal", [], none, none⟩ := by decide

/-- C8 (amended): the service performs no input validation at all: every
vector with at least two entries (up to the 22 the mapping covers) produces a
decision record, whatever its length. -/
theorem c8_no_input_validation (p : List ℚ) (h2 : 2 ≤ p.length) (h22 : p.length ≤ 22) :
    ∃ r : PredResult, applyBiasMitigation p = some r := by
  have hp : p ≠ [] := by
    intro h
    rw [h] at h2
    simp at h2
  by_cases hc : rankConf p 0 < 0.6
  · exact ⟨_, applyBias_low diseaseMapping p hp hc⟩
  · have hidx0 : rankIdx p 0 < 22 := by
      have := rankIdx_lt_length (p := p) (k := 0) (by omega)
      omega
    have hreg : registryHit (cleanLabel diseaseMapping (rankIdx p 0)) = false :=
      registry_never_matches_mapping _ hidx0
    have hdet := detect_miss diseaseMapping p (cleanLabel diseaseMapping (rankIdx p 0))
      (rankConf p 0) hreg
    by_cases hd : npMax p > 0.8 ∧ npMax p - secondMax p > 0.6
    · rw [dominance_fires diseaseMapping p _ h2 hd] at hdet
      exact ⟨_, applyBias_biased diseaseMapping p hp hc _ _ _ hdet⟩
    · rw [dominance_idle diseaseMapping p _ h2 hd] at hdet
      have hres := applyBias_notBiased diseaseMapping p hp hc hdet
      by_cases h95 : rankConf p 0 > 0.95
      · rw [if_pos h95] at hres
        exact ⟨_, hres⟩
      · rw [if_neg h95] at hres
        exact ⟨_, hres⟩

theorem c8_no_input_validation_witness :
    (2 ≤ ([3/20, 1/5, 1/2, 3/100, 1/50] : List ℚ).length ∧
      ([3/20, 1/5, 1/2, 3/100, 1/50] : List ℚ).length ≤ 22) ∧
    ∃ r : PredResult, applyBiasMitigation [3/20, 1/5, 1/2, 3/100, 1/50] = some r :=
  ⟨⟨by decide, by decide⟩, c8_no_input_validation _ (by decide) (by decide)⟩

/-- C9: the decision layer is a pure function of the probability vector: equal
inputs give equal decision records (there is no hidden state or randomness in
the embedded code). -/
theorem c9_deterministic (p q : List ℚ) (h : p = q) :
    applyBiasMitigation p = applyBiasMitigation q := by rw [h]

theorem c9_deterministic_witness :
    applyBiasMitigation [11/20, 1/5, 3/20, 3/50, 1/25] =
      applyBiasMitigation [11/20, 1/5, 3/20, 3/50, 1/25] :=
  c9_deterministic _ _ rfl

/-- C10: the endpoint maps confidence `< 0.45` to the Unknown/low fallback,
the service flags `low_confidence` below 0.6, and at confidence 0.5 the
service reports `low_confidence` while the endpoint does not fall back to
"Unknown". -/
theorem c10_dual_thresholds :
    (∀ raw : PredResult, raw.confidence < 0.45 →
      (predictDiseaseRoot raw).disease = "Unknown" ∧
      (predictDiseaseRoot raw).severity = "low") ∧
    (∀ p : List ℚ, p ≠ [] → rankConf p 0 < 0.6 →
      (applyBiasMitigation p).map (fun r => r.status) = some ("low_confidence")) ∧
    (∃ r : PredResult, applyBiasMitigation [1/2, 1/5, 3/20, 1/10, 1/20] = some r ∧
      r.status = "low_confidence" ∧ 0.45 ≤ r.confidence ∧
      (predictDiseaseRoot r).disease ≠ "Unknown") := by
  refine ⟨?_, ?_, ?_⟩
  · intro raw h
    have hres : predictDiseaseRoot raw = ⟨"success", "Unknown", raw.confidence, "low",
        "Unable to identify. Please upload clearer image.",
        "Upload clearer image if confidence is low."⟩ := by
      simp only [predictDiseaseRoot, if_pos h]
    rw [hres]
    exact ⟨rfl, rfl⟩
  · intro p hp h
    have hres := applyBias_low diseaseMapping p hp h
    rw [applyBiasMitigation, hres]
    rfl
  · exact ⟨_, applyBias_low diseaseMapping _ (by decide) (by decide),
      by decide, by decide, by decide⟩

theorem c10_dual_thresholds_witness :
    ((predictDiseaseRoot ⟨"Healthy Leaf", 2/5, "normal", [], none, none⟩).disease =
        "Unknown" ∧
      (predictDiseaseRoot ⟨"Healthy Leaf", 2/5, "normal", [], none, none⟩).severity =
        "low") ∧
    (applyBiasMitigation [3/10, 1/5, 1/5, 3/20, 3/20]).map (fun r => r.status) =
      some ("low_confidence") :=
  ⟨c10_dual_thresholds.1 ⟨"Healthy Leaf", 2/5, "normal", [], none, none⟩ (by decide),
    c10_dual_thresholds.2.1 _ (by decide) (by decide)⟩
